import Mathlib

/-!
Shallow embedding of the LegalGuardianGPT request-broker subsystem
(the background script at the end of `src/extension/popup.js`, the segment
beginning "Simplified background script for LegalGuardianGPT").

Modelling conventions:
- Time is `Nat` milliseconds (`Date.now()` becomes an explicit `now`
  argument).  JavaScript computes `Date.now() - cached.timestamp < CACHE_TTL`;
  with monotone clocks the difference is non-negative, and if `now < timestamp`
  both JavaScript (negative < TTL) and Lean truncated subtraction (0 < TTL)
  report a fresh hit, so `Nat` subtraction is faithful.
- The global `cache` Map becomes an explicit association list threaded through
  each handler; `Map.get`/`Map.set` become `cacheGet`/`cacheSet`.
- A network interaction is an oracle value of type `FetchOutcome`: either the
  fetch promise rejected (timeout abort or network error), or an HTTP response
  arrived with a status and a body that either parsed as JSON or did not.
- Backend JSON payloads are opaque apart from the two fields the script ever
  reads from an analyze payload (`analysis_prompt`, `relevant_clauses_found`);
  `BackendData.blob` stands for the rest of the payload.
- Fractional similarity scores (0.85, 0.72, 0.65) are modelled in exact
  hundredths (85, 72, 65) to avoid floating point.
- Each handler also reports trace booleans (`netCalled`, `cacheRead`,
  `cacheWrote`) recording whether it touched the network or the cache, so that
  side-effect claims are statable.
-/

set_option autoImplicit false

namespace LegalGuardian

/-- `CACHE_TTL = 60000` from popup.js line 519. -/
def CACHE_TTL : Nat := 60000

/-- `CONFIG.TIMEOUT = 10000` from popup.js line 514. -/
def CONFIG_TIMEOUT : Nat := 10000

/-- `CONFIG.MAX_RETRIES = 3` from popup.js line 513 (never consulted). -/
def CONFIG_MAX_RETRIES : Nat := 3

/-- Metadata object attached to each fallback clause (popup.js lines 614, 620, 626). -/
structure Metadata where
  source : String
  document_title : String
deriving DecidableEq, Repr

/-- One entry of the fallback clause catalog (popup.js lines 610-627).
`similarity_score` is in hundredths: 85 stands for the source literal 0.85. -/
structure Clause where
  text : String
  clause_type : String
  similarity_score : Nat
  metadata : Metadata
deriving DecidableEq, Repr

/-- An opaque parsed backend JSON payload.  The script only ever reads
`analysis_prompt` and `relevant_clauses_found` from such a payload (in the
GET_ENHANCED_RESPONSE branch, popup.js line 719); `blob` stands for the rest. -/
structure BackendData where
  blob : String
  analysis_prompt : String
  relevant_clauses_found : Nat
deriving DecidableEq, Repr

/-- The object literal returned by the analyze fallback (popup.js lines 675-681). -/
structure AnalyzeFallback where
  status : String
  document_preview : String
  relevant_clauses_found : Nat
  analysis_prompt : String
  analysis_ready : Bool
deriving DecidableEq, Repr

/-- The JavaScript values that the three cached handlers return and that the
cache can hold:
- `healthHealthy d` is `{status: "healthy", data: d}` (popup.js lines 553, 557);
- `healthError msg` is `{status: "error", error: msg, fallback: true}` (lines 560-564);
- `backendData d` is a parsed backend payload passed through verbatim (lines 592, 599, 664, 671);
- `clauses cs` is the fallback clause array (line 603);
- `analyzeFallback f` is the analyze fallback object (lines 675-681). -/
inductive Val where
  | healthHealthy (d : BackendData)
  | healthError (msg : String)
  | backendData (d : BackendData)
  | clauses (cs : List Clause)
  | analyzeFallback (f : AnalyzeFallback)
deriving DecidableEq, Repr

/-- A cache slot `{data, timestamp}` as stored by `cache.set` (popup.js lines 552-555, 594-597, 666-669). -/
structure CacheEntry where
  data : Val
  timestamp : Nat
deriving DecidableEq, Repr

/-- The global `cache = new Map()` (popup.js line 518), as an association list. -/
abbrev Cache := List (String × CacheEntry)

/-- `cache.get(key)`. -/
def cacheGet : Cache → String → Option CacheEntry
  | [], _ => none
  | (k0, e) :: rest, k => if k0 = k then some e else cacheGet rest k

/-- `cache.set(key, entry)`: unconditional overwrite, Map semantics. -/
def cacheSet : Cache → String → CacheEntry → Cache
  | [], k, e => [(k, e)]
  | (k0, e0) :: rest, k, e =>
    if k0 = k then (k, e) :: rest else (k0, e0) :: cacheSet rest k e

/-- The empty cache at process start. -/
def cacheEmpty : Cache := []

/-- The freshness-checked read inlined identically at the head of all three
handlers: `const cached = cache.get(key); if (cached && (Date.now() -
cached.timestamp) < CACHE_TTL) return cached.data;` (popup.js lines 542-546,
571-575, 643-647). -/
def getFresh (c : Cache) (now : Nat) (k : String) : Option Val :=
  match cacheGet c k with
  | some e => if now - e.timestamp < CACHE_TTL then some e.data else none
  | none => none

/-- Outcome of `response.json()`: the body parsed, or parsing threw. -/
inductive Body where
  | parsed (d : BackendData)
  | malformed (msg : String)
deriving DecidableEq, Repr

/-- Oracle for one `fetchWithTimeout` interaction as the handlers observe it:
either the promise rejected (network error, or the abort fired on timeout), or
an HTTP response arrived with a status code and a body. -/
inductive FetchOutcome where
  | fetchError (msg : String)
  | response (status : Nat) (body : Body)
deriving DecidableEq, Repr

/-- `response.ok`: status in the 2xx range. -/
def statusOk (s : Nat) : Bool := 200 ≤ s && s < 300

/-- Whether a fetch outcome takes an error branch in `searchCUADSimple` and
`analyzeSimple`: the fetch threw, the `response.ok` guard threw
(`API error: status`), or `response.json()` threw. -/
def fetchFails : FetchOutcome → Bool
  | .fetchError _ => true
  | .response s (.parsed _) => !statusOk s
  | .response _ (.malformed _) => true

/-- Result of one handler invocation: the returned value, the cache afterwards,
and whether the network, a cache read, and a cache write happened. -/
structure HandlerOut where
  value : Val
  cache : Cache
  netCalled : Bool
  cacheRead : Bool
  cacheWrote : Bool
deriving DecidableEq, Repr

/-- The health-check cache key (popup.js line 541). -/
def healthKey : String := "health_check"

/-- The try/catch body of `checkCUADHealth` (popup.js lines 548-565).  Note the
source never consults `response.ok`: any response whose body parses is cached
and returned as `{status: "healthy", data}`, whatever the status code. -/
def checkCUADHealthFetch (c : Cache) (now : Nat) (net : FetchOutcome) : HandlerOut :=
  match net with
  | .response _ (.parsed d) =>
      ⟨.healthHealthy d, cacheSet c healthKey ⟨.healthHealthy d, now⟩, true, true, true⟩
  | .response _ (.malformed msg) => ⟨.healthError msg, c, true, true, false⟩
  | .fetchError msg => ⟨.healthError msg, c, true, true, false⟩

/-- `checkCUADHealth` (popup.js lines 540-566). -/
def checkCUADHealth (c : Cache) (now : Nat) (net : FetchOutcome) : HandlerOut :=
  match getFresh c now healthKey with
  | some v => ⟨v, c, false, true, false⟩
  | none => checkCUADHealthFetch c now net

/-- JavaScript `toLowerCase()`, character by character.  (Defined over the
character list so that it reduces in the kernel; the clause catalog and the
queries in the claims are ASCII, where this agrees with JavaScript.) -/
def strToLower (s : String) : String := String.mk (s.data.map Char.toLower)

/-- JavaScript `s.substring(0, n)`: the first `n` characters of `s`, or all of
`s` when it is shorter. -/
def strTake (s : String) (n : Nat) : String := String.mk (s.data.take n)

/-- Substring test on character lists: does `pat` occur contiguously in `hay`?
This is `String.prototype.includes`. -/
def listContains : List Char → List Char → Bool
  | hay, pat =>
    match hay with
    | [] => pat.isEmpty
    | _ :: rest => pat.isPrefixOf hay || listContains rest pat

/-- `hay.includes(pat)` on strings. -/
def strIncludes (hay pat : String) : Bool := listContains hay.data pat.data

/-- The fixed fallback clause catalog `sampleClauses` (popup.js lines 609-628). -/
def sampleClauses : List Clause :=
  [⟨"Confidential Information means all information disclosed by one party to another that is marked confidential or should reasonably be considered confidential.",
    "Confidentiality", 85, ⟨"fallback", "Sample NDA"⟩⟩,
   ⟨"This Agreement may be terminated by either party upon thirty (30) days written notice to the other party.",
    "Termination", 72, ⟨"fallback", "Sample Agreement"⟩⟩,
   ⟨"Neither party shall be liable for any indirect, special, incidental, or consequential damages.",
    "Liability", 65, ⟨"fallback", "Sample Contract"⟩⟩]

/-- The filter predicate of `getFallbackClauses` (popup.js lines 632-634):
case-insensitive substring match of the query against clause text or type. -/
def clauseMatches (queryLower : String) (cl : Clause) : Bool :=
  strIncludes (strToLower cl.text) queryLower || strIncludes (strToLower cl.clause_type) queryLower

/-- `getFallbackClauses` (popup.js lines 608-638): filter the catalog by the
lower-cased query, keep at most `nResults` (`slice(0, nResults)`), and if that
leaves nothing return the first `nResults` catalog entries unfiltered. -/
def getFallbackClauses (query : String) (nResults : Nat) : List Clause :=
  let queryLower := strToLower query
  let filtered := (sampleClauses.filter (clauseMatches queryLower)).take nResults
  if filtered.length > 0 then filtered else sampleClauses.take nResults

/-- The cache key `` `search_${query}_${nResults}` `` (popup.js line 570). -/
def searchKey (query : String) (nResults : Nat) : String :=
  "search_" ++ query ++ "_" ++ toString nResults

/-- `searchCUADSimple` (popup.js lines 569-605): fresh cache hit returns the
cached data; otherwise fetch `/search`; a non-ok status or a body that fails to
parse throws into the catch, which returns the fallback clauses; a parsed ok
response is cached and returned. -/
def searchCUADSimple (query : String) (nResults : Nat) (c : Cache) (now : Nat)
    (net : FetchOutcome) : HandlerOut :=
  match getFresh c now (searchKey query nResults) with
  | some v => ⟨v, c, false, true, false⟩
  | none =>
    match net with
    | .fetchError _ => ⟨.clauses (getFallbackClauses query nResults), c, true, true, false⟩
    | .response s body =>
      if statusOk s then
        match body with
        | .parsed d =>
            ⟨.backendData d,
             cacheSet c (searchKey query nResults) ⟨.backendData d, now⟩, true, true, true⟩
        | .malformed _ => ⟨.clauses (getFallbackClauses query nResults), c, true, true, false⟩
      else ⟨.clauses (getFallbackClauses query nResults), c, true, true, false⟩

/-- JavaScript `${question}` in a template literal: `null` prints as "null". -/
def questionStr : Option String → String
  | some q => q
  | none => "null"

/-- JavaScript `question || dflt`: `null` and the empty string are falsy. -/
def jsOrStr (q : Option String) (dflt : String) : String :=
  match q with
  | some s => if s = "" then dflt else s
  | none => dflt

/-- The cache key `` `analyze_${documentText.substring(0, 50)}_${question}` ``
(popup.js line 642). -/
def analyzeKey (documentText : String) (question : Option String) : String :=
  "analyze_" ++ strTake documentText 50 ++ "_" ++ questionStr question

/-- The default analysis prompt (popup.js line 679). -/
def defaultAnalysisPrompt : String := "Please analyze this legal document."

/-- The fallback object built in the catch of `analyzeSimple`
(popup.js lines 675-681). -/
def analyzeFallbackFor (documentText : String) (question : Option String) : AnalyzeFallback :=
  ⟨"fallback", strTake documentText 200, 0, jsOrStr question defaultAnalysisPrompt, false⟩

/-- `analyzeSimple` (popup.js lines 641-683): fresh cache hit returns the
cached data; otherwise fetch `/analyze`; any error branch returns the fallback
object; a parsed ok response is cached and returned. -/
def analyzeSimple (documentText : String) (question : Option String) (c : Cache)
    (now : Nat) (net : FetchOutcome) : HandlerOut :=
  match getFresh c now (analyzeKey documentText question) with
  | some v => ⟨v, c, false, true, false⟩
  | none =>
    match net with
    | .fetchError _ =>
        ⟨.analyzeFallback (analyzeFallbackFor documentText question), c, true, true, false⟩
    | .response s body =>
      if statusOk s then
        match body with
        | .parsed d =>
            ⟨.backendData d,
             cacheSet c (analyzeKey documentText question) ⟨.backendData d, now⟩,
             true, true, true⟩
        | .malformed _ =>
            ⟨.analyzeFallback (analyzeFallbackFor documentText question), c, true, true, false⟩
      else ⟨.analyzeFallback (analyzeFallbackFor documentText question), c, true, true, false⟩

/-- Outcome of the raw underlying `fetch` promise in `fetchWithTimeout`, were
it allowed to run to completion: it resolves with a response or rejects. -/
inductive OpResult where
  | ok (status : Nat) (body : Body)
  | netError (msg : String)
deriving DecidableEq, Repr

/-- The executor-level result: the response, an abort-induced timeout
rejection, or a transport rejection. -/
inductive ExecResult where
  | success (status : Nat) (body : Body)
  | timeoutErr
  | transportErr (msg : String)
deriving DecidableEq, Repr

/-- Trace of one `fetchWithTimeout` call: its result, whether
`controller.abort()` ran, and whether `clearTimeout(id)` ran. -/
structure ExecOut where
  result : ExecResult
  aborted : Bool
  timerCleared : Bool
deriving DecidableEq, Repr

/-- Timed model of `fetchWithTimeout` (popup.js lines 522-537).  `opTime` is
the instant (relative to the call) at which the underlying fetch would settle.
If the fetch settles strictly before the deadline, the timer is cleared and the
call resolves/rejects with the fetch outcome; otherwise the timer fires first,
`controller.abort()` cancels the fetch, the aborted fetch rejects, and the
catch clears the (already fired) timer and rethrows — a timeout rejection.
A tie is resolved in favour of the timer. -/
def fetchWithTimeout (timeoutMs : Nat) (opTime : Nat) (op : OpResult) : ExecOut :=
  if opTime < timeoutMs then
    ⟨match op with
      | .ok s b => .success s b
      | .netError msg => .transportErr msg,
     false, true⟩
  else
    ⟨.timeoutErr, true, true⟩

/-- Discriminator: the executor resolved with a response. -/
def isSuccess : ExecResult → Bool
  | .success _ _ => true
  | _ => false

/-- Discriminator: the executor rejected on the deadline. -/
def isTimeoutRes : ExecResult → Bool
  | .timeoutErr => true
  | _ => false

/-- Discriminator: the executor rejected with a transport error. -/
def isTransport : ExecResult → Bool
  | .transportErr _ => true
  | _ => false

/-- An incoming runtime message (popup.js line 686): the action name plus the
fields the dispatcher reads.  Absent optional fields are `none`. -/
structure Request where
  action : String
  query : String
  nResults : Option Nat
  documentText : String
  question : Option String
  prompt : String
deriving DecidableEq, Repr

/-- JavaScript `request.nResults || 3` (popup.js line 698): `undefined` and `0`
are falsy. -/
def jsOrNat (n : Option Nat) (dflt : Nat) : Nat :=
  match n with
  | some m => if m = 0 then dflt else m
  | none => dflt

/-- The shapes `sendResponse` can deliver (popup.js lines 692-731).  Timestamp
fields hold the instant `now`; their ISO rendering is presentation only. -/
inductive Response where
  | val (v : Val)
  | gpt (fallback : Bool) (content : String) (timestamp : Nat)
  | enhanced (fallback : Bool) (content : String) (analysis : Val) (timestamp : Nat)
  | pong (timestamp : Nat)
  | unknownAction (error : String) (action : String)
deriving DecidableEq, Repr

/-- The constant GET_GPT_RESPONSE content (popup.js line 709). -/
def gptFallbackContent : String :=
  "Analysis based on CUAD references: This appears to be a legal document containing standard provisions. For detailed analysis, please configure OpenAI API key in settings."

/-- Reading `.analysis_prompt` off an analyze result; on a value without that
property JavaScript yields `undefined`, which a template literal prints as
"undefined". -/
def analysisPromptOf : Val → String
  | .backendData d => d.analysis_prompt
  | .analyzeFallback f => f.analysis_prompt
  | _ => "undefined"

/-- Reading `.relevant_clauses_found` off an analyze result, rendered for a
template literal. -/
def clausesFoundStr : Val → String
  | .backendData d => toString d.relevant_clauses_found
  | .analyzeFallback f => toString f.relevant_clauses_found
  | _ => "undefined"

/-- The GET_ENHANCED_RESPONSE content template (popup.js line 719). -/
def enhancedContent (analysis : Val) : String :=
  "Analysis based on document context: " ++ analysisPromptOf analysis
    ++ "\n\n[Using CUAD RAG system - " ++ clausesFoundStr analysis ++ " references found]"

/-- Result of one dispatcher invocation: the response sent, the cache
afterwards, and the same side-effect trace booleans as `HandlerOut`. -/
structure Trace where
  response : Response
  cache : Cache
  netCalled : Bool
  cacheRead : Bool
  cacheWrote : Bool
deriving DecidableEq, Repr

/-- The action strings the switch enumerates (popup.js lines 693-727). -/
def enumeratedActions : List String :=
  ["CHECK_CUAD_HEALTH", "SEARCH_CUAD", "ANALYZE_WITH_CUAD",
   "GET_GPT_RESPONSE", "GET_ENHANCED_RESPONSE", "PING"]

/-- The `chrome.runtime.onMessage` switch (popup.js lines 686-743).  The outer
try/catch is unreachable in this model because every handler is total: all
backend failure is already funnelled through the `FetchOutcome` oracle. -/
def handle (req : Request) (c : Cache) (now : Nat) (net : FetchOutcome) : Trace :=
  if req.action = "CHECK_CUAD_HEALTH" then
    let o := checkCUADHealth c now net
    ⟨.val o.value, o.cache, o.netCalled, o.cacheRead, o.cacheWrote⟩
  else if req.action = "SEARCH_CUAD" then
    let o := searchCUADSimple req.query (jsOrNat req.nResults 3) c now net
    ⟨.val o.value, o.cache, o.netCalled, o.cacheRead, o.cacheWrote⟩
  else if req.action = "ANALYZE_WITH_CUAD" then
    let o := analyzeSimple req.documentText req.question c now net
    ⟨.val o.value, o.cache, o.netCalled, o.cacheRead, o.cacheWrote⟩
  else if req.action = "GET_GPT_RESPONSE" then
    ⟨.gpt true gptFallbackContent now, c, false, false, false⟩
  else if req.action = "GET_ENHANCED_RESPONSE" then
    let o := analyzeSimple req.documentText req.question c now net
    ⟨.enhanced true (enhancedContent o.value) o.value now,
     o.cache, o.netCalled, o.cacheRead, o.cacheWrote⟩
  else if req.action = "PING" then
    ⟨.pong now, c, false, false, false⟩
  else
    ⟨.unknownAction "Unknown action" req.action, c, false, false, false⟩

/-- Truthiness of the `fallback` property on a handler value: among the five
shapes only the health error object carries `fallback: true` (popup.js line
563); the healthy object, raw backend payloads, the fallback clause array and
the analyze fallback object have no such property. -/
def valHasFallbackTrue : Val → Bool
  | .healthError _ => true
  | _ => false

/-- Whether a value is Fallback-Provider output rather than backend data. -/
def isFallbackVal : Val → Bool
  | .healthError _ => true
  | .clauses _ => true
  | .analyzeFallback _ => true
  | _ => false


/-! ## Helper lemmas -/

theorem cacheGet_cacheSet_self (c : Cache) (k : String) (e : CacheEntry) :
    cacheGet (cacheSet c k e) k = some e := by
  induction c with
  | nil => simp [cacheSet, cacheGet]
  | cons kv rest ih =>
    obtain ⟨k0, e0⟩ := kv
    by_cases h : k0 = k
    · simp [cacheSet, h, cacheGet]
    · simp [cacheSet, h, cacheGet, ih]

theorem cacheGet_cacheSet_ne (c : Cache) (k k1 : String) (e : CacheEntry) (h : k1 ≠ k) :
    cacheGet (cacheSet c k e) k1 = cacheGet c k1 := by
  induction c with
  | nil => simp [cacheSet, cacheGet, Ne.symm h]
  | cons kv rest ih =>
    obtain ⟨k0, e0⟩ := kv
    by_cases h0 : k0 = k
    · subst h0
      simp [cacheSet, cacheGet, Ne.symm h]
    · simp [cacheSet, h0, cacheGet, ih]

theorem cacheGet_cacheSet_cases (c : Cache) (k k1 : String) (e e1 : CacheEntry)
    (h : cacheGet (cacheSet c k e) k1 = some e1) :
    (k1 = k ∧ e1 = e) ∨ cacheGet c k1 = some e1 := by
  by_cases hk : k1 = k
  · subst hk
    rw [cacheGet_cacheSet_self] at h
    exact Or.inl ⟨rfl, (Option.some_inj.mp h).symm⟩
  · rw [cacheGet_cacheSet_ne c k k1 e hk] at h
    exact Or.inr h

theorem cacheGet_cacheSet_isSome (c : Cache) (k k1 : String) (e : CacheEntry)
    (h : (cacheGet c k1).isSome = true) : (cacheGet (cacheSet c k e) k1).isSome = true := by
  by_cases hk : k1 = k
  · subst hk
    rw [cacheGet_cacheSet_self]
    rfl
  · rw [cacheGet_cacheSet_ne c k k1 e hk]
    exact h

theorem getFresh_spec (c : Cache) (now : Nat) (k : String) (v : Val) :
    getFresh c now k = some v ↔
      ∃ e : CacheEntry, cacheGet c k = some e ∧ now - e.timestamp < CACHE_TTL ∧ v = e.data := by
  unfold getFresh
  cases h : cacheGet c k with
  | none => simp
  | some e =>
    by_cases ht : now - e.timestamp < CACHE_TTL
    · simp [ht, eq_comm]
    · simp [ht]

theorem checkCUADHealth_cache_shape (c : Cache) (now : Nat) (net : FetchOutcome) :
    (checkCUADHealth c now net).cache = c ∨
    ∃ d : BackendData, (checkCUADHealth c now net).cache
        = cacheSet c healthKey ⟨.healthHealthy d, now⟩ := by
  unfold checkCUADHealth checkCUADHealthFetch
  cases hg : getFresh c now healthKey with
  | some v => exact Or.inl rfl
  | none =>
    cases net with
    | fetchError msg => exact Or.inl rfl
    | response s body =>
      cases body with
      | parsed d => exact Or.inr ⟨d, rfl⟩
      | malformed msg => exact Or.inl rfl

theorem searchCUADSimple_cache_shape (q : String) (n : Nat) (c : Cache) (now : Nat)
    (net : FetchOutcome) :
    (searchCUADSimple q n c now net).cache = c ∨
    ∃ d : BackendData, (searchCUADSimple q n c now net).cache
        = cacheSet c (searchKey q n) ⟨.backendData d, now⟩ := by
  unfold searchCUADSimple
  cases hg : getFresh c now (searchKey q n) with
  | some v => exact Or.inl rfl
  | none =>
    cases net with
    | fetchError msg => exact Or.inl rfl
    | response s body =>
      by_cases hs : statusOk s
      · cases body with
        | parsed d => exact Or.inr ⟨d, by simp [hs]⟩
        | malformed msg => simp [hs]
      · cases body with
        | parsed d => simp [hs]
        | malformed msg => simp [hs]

theorem analyzeSimple_cache_shape (doc : String) (qu : Option String) (c : Cache) (now : Nat)
    (net : FetchOutcome) :
    (analyzeSimple doc qu c now net).cache = c ∨
    ∃ d : BackendData, (analyzeSimple doc qu c now net).cache
        = cacheSet c (analyzeKey doc qu) ⟨.backendData d, now⟩ := by
  unfold analyzeSimple
  cases hg : getFresh c now (analyzeKey doc qu) with
  | some v => exact Or.inl rfl
  | none =>
    cases net with
    | fetchError msg => exact Or.inl rfl
    | response s body =>
      by_cases hs : statusOk s
      · cases body with
        | parsed d => exact Or.inr ⟨d, by simp [hs]⟩
        | malformed msg => simp [hs]
      · cases body with
        | parsed d => simp [hs]
        | malformed msg => simp [hs]

theorem handle_cache_shape (req : Request) (c : Cache) (now : Nat) (net : FetchOutcome) :
    (handle req c now net).cache = c ∨
    ∃ (k : String) (v : Val), isFallbackVal v = false ∧
      (handle req c now net).cache = cacheSet c k ⟨v, now⟩ := by
  unfold handle
  split
  · rcases checkCUADHealth_cache_shape c now net with h | ⟨d, h⟩
    · exact Or.inl h
    · exact Or.inr ⟨healthKey, .healthHealthy d, rfl, h⟩
  split
  · rcases searchCUADSimple_cache_shape req.query (jsOrNat req.nResults 3) c now net with h | ⟨d, h⟩
    · exact Or.inl h
    · exact Or.inr ⟨searchKey req.query (jsOrNat req.nResults 3), .backendData d, rfl, h⟩
  split
  · rcases analyzeSimple_cache_shape req.documentText req.question c now net with h | ⟨d, h⟩
    · exact Or.inl h
    · exact Or.inr ⟨analyzeKey req.documentText req.question, .backendData d, rfl, h⟩
  split
  · exact Or.inl rfl
  split
  · rcases analyzeSimple_cache_shape req.documentText req.question c now net with h | ⟨d, h⟩
    · exact Or.inl h
    · exact Or.inr ⟨analyzeKey req.documentText req.question, .backendData d, rfl, h⟩
  split
  · exact Or.inl rfl
  · exact Or.inl rfl

/-! ## Claim theorems -/

set_option maxRecDepth 100000

/-- C3: a cache lookup yields a value exactly when an entry exists for the key
and `now - insertedAt < CACHE_TTL`; no operation of the broker ever removes an
entry (stale entries stay until overwritten); and a store overwrites the entry
for its key unconditionally. -/
theorem ttl_cache_contract :
    (∀ (c : Cache) (now : Nat) (k : String) (v : Val),
        getFresh c now k = some v ↔
          ∃ e : CacheEntry, cacheGet c k = some e ∧ now - e.timestamp < CACHE_TTL ∧ v = e.data)
  ∧ (∀ (req : Request) (c : Cache) (now : Nat) (net : FetchOutcome) (k : String),
        (cacheGet c k).isSome = true → (cacheGet (handle req c now net).cache k).isSome = true)
  ∧ (∀ (c : Cache) (k : String) (e : CacheEntry), cacheGet (cacheSet c k e) k = some e) := by
  refine ⟨getFresh_spec, ?_, cacheGet_cacheSet_self⟩
  intro req c now net k h
  rcases handle_cache_shape req c now net with hs | ⟨k1, v1, _, hs⟩
  · rw [hs]
    exact h
  · rw [hs]
    exact cacheGet_cacheSet_isSome c k1 k ⟨v1, now⟩ h

theorem ttl_cache_contract_witness :
    (cacheGet (handle ⟨"PING", "", none, "", none, ""⟩
        [("k", (⟨.healthError "x", 0⟩ : CacheEntry))] 0 (.fetchError "e")).cache "k").isSome
      = true :=
  ttl_cache_contract.2.1 ⟨"PING", "", none, "", none, ""⟩
    [("k", (⟨.healthError "x", 0⟩ : CacheEntry))] 0 (.fetchError "e") "k" (by decide)

/-- C2: after a successful search fetch is cached at `t0`, an identical request
at `t1` with `t1 - t0 < CACHE_TTL` returns the same response with no network
call and no cache change, while a request with `CACHE_TTL ≤ t1 - t0` performs a
new network attempt. -/
theorem search_cache_ttl (q : String) (n : Nat) (c : Cache) (t0 t1 : Nat)
    (d : BackendData) (s : Nat) (net1 : FetchOutcome)
    (hmiss : getFresh c t0 (searchKey q n) = none) (hok : statusOk s = true) :
    searchCUADSimple q n c t0 (.response s (.parsed d)) =
      ⟨.backendData d, cacheSet c (searchKey q n) ⟨.backendData d, t0⟩, true, true, true⟩
  ∧ (t1 - t0 < CACHE_TTL →
      searchCUADSimple q n (cacheSet c (searchKey q n) ⟨.backendData d, t0⟩) t1 net1 =
        ⟨.backendData d, cacheSet c (searchKey q n) ⟨.backendData d, t0⟩, false, true, false⟩)
  ∧ (CACHE_TTL ≤ t1 - t0 →
      (searchCUADSimple q n (cacheSet c (searchKey q n) ⟨.backendData d, t0⟩) t1 net1).netCalled
        = true) := by
  have hget : getFresh (cacheSet c (searchKey q n) ⟨.backendData d, t0⟩) t1 (searchKey q n)
      = if t1 - t0 < CACHE_TTL then some (.backendData d) else none := by
    unfold getFresh
    rw [cacheGet_cacheSet_self]
  refine ⟨?_, ?_, ?_⟩
  · unfold searchCUADSimple
    rw [hmiss]
    simp [hok]
  · intro ht
    unfold searchCUADSimple
    rw [hget, if_pos ht]
  · intro ht
    unfold searchCUADSimple
    rw [hget, if_neg (Nat.not_lt.mpr ht)]
    cases net1 with
    | fetchError m => rfl
    | response s1 b =>
      by_cases hs1 : statusOk s1
      · cases b <;> simp [hs1]
      · cases b <;> simp [hs1]

theorem search_cache_ttl_witness :
    searchCUADSimple "a" 1
        (cacheSet [] (searchKey "a" 1) ⟨.backendData ⟨"b", "p", 2⟩, 0⟩) 59999 (.fetchError "x") =
      ⟨.backendData ⟨"b", "p", 2⟩,
       cacheSet [] (searchKey "a" 1) ⟨.backendData ⟨"b", "p", 2⟩, 0⟩, false, true, false⟩ :=
  (search_cache_ttl "a" 1 [] 0 59999 ⟨"b", "p", 2⟩ 200 (.fetchError "x") rfl
      (by decide)).2.1 (by decide)

/-- C9: with the backend down (the fetch rejects) and nothing cached, an
analyze request with no question returns the fallback object: status
"fallback", a 200-character document preview, zero relevant clauses, the
default prompt, and analysis_ready false. -/
theorem analyze_fallback_shape (doc : String) (now : Nat) (msg : String) :
    (analyzeSimple doc none cacheEmpty now (.fetchError msg)).value
      = .analyzeFallback ⟨"fallback", strTake doc 200, 0, defaultAnalysisPrompt, false⟩
  ∧ (analyzeSimple doc none cacheEmpty now (.fetchError msg)).netCalled = true
  ∧ (analyzeSimple doc none cacheEmpty now (.fetchError msg)).cacheWrote = false :=
  ⟨rfl, rfl, rfl⟩

/-- C8: with the backend unreachable, `search("confidential", 3)` returns
exactly the one catalog entry whose clause type is "Confidentiality" (no other
entry matches, so there is nothing to pad with), carrying its fixed
similarity score 0.85 (here 85 hundredths). -/
theorem search_confidential_fallback (now : Nat) (msg : String) :
    (searchCUADSimple "confidential" 3 cacheEmpty now (.fetchError msg)).value
      = .clauses (sampleClauses.take 1)
  ∧ getFallbackClauses "confidential" 3 = sampleClauses.take 1
  ∧ sampleClauses.filter (fun cl => cl.clause_type = "Confidentiality") = sampleClauses.take 1
  ∧ (∀ cl ∈ getFallbackClauses "confidential" 3, cl.similarity_score = 85) := by
  have hc : getFallbackClauses "confidential" 3 = sampleClauses.take 1 := by decide
  refine ⟨?_, hc, by decide, by decide⟩
  show Val.clauses (getFallbackClauses "confidential" 3) = .clauses (sampleClauses.take 1)
  rw [hc]

/-- C10: the analyze cache key is built from only the first 50 characters of
the document plus the question, so two analyze requests whose documents agree
on those 50 characters and whose questions are equal share a key; within the
TTL the second request is answered from the cache entry computed for the first
possibly different full document of the first request, with no network call. -/
theorem analyze_cache_key_collision (doc1 doc2 : String) (q : Option String)
    (hpre : strTake doc1 50 = strTake doc2 50) :
    analyzeKey doc1 q = analyzeKey doc2 q
  ∧ ∀ (c : Cache) (t0 t1 : Nat) (d : BackendData) (net : FetchOutcome),
      getFresh c t0 (analyzeKey doc1 q) = none →
      t1 - t0 < CACHE_TTL →
      analyzeSimple doc1 q c t0 (.response 200 (.parsed d)) =
        ⟨.backendData d, cacheSet c (analyzeKey doc1 q) ⟨.backendData d, t0⟩, true, true, true⟩
      ∧ analyzeSimple doc2 q (cacheSet c (analyzeKey doc1 q) ⟨.backendData d, t0⟩) t1 net =
          ⟨.backendData d, cacheSet c (analyzeKey doc1 q) ⟨.backendData d, t0⟩,
           false, true, false⟩ := by
  have hkey : analyzeKey doc1 q = analyzeKey doc2 q := by
    unfold analyzeKey
    rw [hpre]
  refine ⟨hkey, ?_⟩
  intro c t0 t1 d net hmiss ht
  have hok : statusOk 200 = true := by decide
  have hg : getFresh (cacheSet c (analyzeKey doc1 q) ⟨.backendData d, t0⟩) t1
      (analyzeKey doc1 q) = some (.backendData d) := by
    unfold getFresh
    rw [cacheGet_cacheSet_self]
    simp [ht]
  constructor
  · unfold analyzeSimple
    rw [hmiss]
    simp [hok]
  · unfold analyzeSimple
    rw [← hkey, hg]

theorem analyze_cache_key_collision_witness :
    analyzeSimple "01234567890123456789012345678901234567890123456789B" (some "qq")
        (cacheSet []
          (analyzeKey "01234567890123456789012345678901234567890123456789A" (some "qq"))
          ⟨.backendData ⟨"", "p", 1⟩, 0⟩) 10 (.fetchError "down") =
      ⟨.backendData ⟨"", "p", 1⟩,
       cacheSet []
         (analyzeKey "01234567890123456789012345678901234567890123456789A" (some "qq"))
         ⟨.backendData ⟨"", "p", 1⟩, 0⟩, false, true, false⟩ :=
  ((analyze_cache_key_collision "01234567890123456789012345678901234567890123456789A"
      "01234567890123456789012345678901234567890123456789B" (some "qq") (by decide)).2
    [] 0 10 ⟨"", "p", 1⟩ (.fetchError "down") rfl (by decide)).2

/-- C4: each successful backend call of a handler writes exactly the one entry for
its key (all other keys untouched); every error branch leaves the cache
untouched; and across the whole dispatcher, any entry present after a step was
either already present or holds backend data, never Fallback-Provider output. -/
theorem broker_cache_write_discipline :
    (∀ (q : String) (n : Nat) (c : Cache) (now s : Nat) (d : BackendData),
        statusOk s = true → getFresh c now (searchKey q n) = none →
        (searchCUADSimple q n c now (.response s (.parsed d))).cache
          = cacheSet c (searchKey q n) ⟨.backendData d, now⟩)
  ∧ (∀ (q : String) (n : Nat) (c : Cache) (now : Nat) (net : FetchOutcome),
        fetchFails net = true →
        (searchCUADSimple q n c now net).cache = c
          ∧ (searchCUADSimple q n c now net).cacheWrote = false)
  ∧ (∀ (doc : String) (qu : Option String) (c : Cache) (now s : Nat) (d : BackendData),
        statusOk s = true → getFresh c now (analyzeKey doc qu) = none →
        (analyzeSimple doc qu c now (.response s (.parsed d))).cache
          = cacheSet c (analyzeKey doc qu) ⟨.backendData d, now⟩)
  ∧ (∀ (doc : String) (qu : Option String) (c : Cache) (now : Nat) (net : FetchOutcome),
        fetchFails net = true →
        (analyzeSimple doc qu c now net).cache = c
          ∧ (analyzeSimple doc qu c now net).cacheWrote = false)
  ∧ (∀ (c : Cache) (now s : Nat) (d : BackendData),
        getFresh c now healthKey = none →
        (checkCUADHealth c now (.response s (.parsed d))).cache
          = cacheSet c healthKey ⟨.healthHealthy d, now⟩)
  ∧ (∀ (c : Cache) (now : Nat) (msg : String),
        (checkCUADHealth c now (.fetchError msg)).cache = c
          ∧ (checkCUADHealth c now (.fetchError msg)).cacheWrote = false)
  ∧ (∀ (c : Cache) (now s : Nat) (msg : String),
        (checkCUADHealth c now (.response s (.malformed msg))).cache = c
          ∧ (checkCUADHealth c now (.response s (.malformed msg))).cacheWrote = false)
  ∧ (∀ (q : String) (n : Nat) (c : Cache) (now s : Nat) (d : BackendData) (k : String),
        statusOk s = true → getFresh c now (searchKey q n) = none → k ≠ searchKey q n →
        cacheGet (searchCUADSimple q n c now (.response s (.parsed d))).cache k = cacheGet c k)
  ∧ (∀ (req : Request) (c : Cache) (now : Nat) (net : FetchOutcome) (k : String)
        (e : CacheEntry),
        cacheGet (handle req c now net).cache k = some e →
        cacheGet c k = some e ∨ isFallbackVal e.data = false) := by
  refine ⟨?_, ?_, ?_, ?_, ?_, ?_, ?_, ?_, ?_⟩
  · intro q n c now s d hok hmiss
    unfold searchCUADSimple
    rw [hmiss]
    simp [hok]
  · intro q n c now net hf
    unfold searchCUADSimple
    cases hg : getFresh c now (searchKey q n) with
    | some v => exact ⟨rfl, rfl⟩
    | none =>
      cases net with
      | fetchError m => exact ⟨rfl, rfl⟩
      | response s b =>
        cases b with
        | parsed d =>
          have hs : statusOk s = false := by
            simpa [fetchFails] using hf
          simp [hs]
        | malformed m =>
          by_cases hs : statusOk s
          · simp [hs]
          · simp [hs]
  · intro doc qu c now s d hok hmiss
    unfold analyzeSimple
    rw [hmiss]
    simp [hok]
  · intro doc qu c now net hf
    unfold analyzeSimple
    cases hg : getFresh c now (analyzeKey doc qu) with
    | some v => exact ⟨rfl, rfl⟩
    | none =>
      cases net with
      | fetchError m => exact ⟨rfl, rfl⟩
      | response s b =>
        cases b with
        | parsed d =>
          have hs : statusOk s = false := by
            simpa [fetchFails] using hf
          simp [hs]
        | malformed m =>
          by_cases hs : statusOk s
          · simp [hs]
          · simp [hs]
  · intro c now s d hmiss
    unfold checkCUADHealth checkCUADHealthFetch
    rw [hmiss]
  · intro c now msg
    unfold checkCUADHealth checkCUADHealthFetch
    cases hg : getFresh c now healthKey with
    | some v => exact ⟨rfl, rfl⟩
    | none => exact ⟨rfl, rfl⟩
  · intro c now s msg
    unfold checkCUADHealth checkCUADHealthFetch
    cases hg : getFresh c now healthKey with
    | some v => exact ⟨rfl, rfl⟩
    | none => exact ⟨rfl, rfl⟩
  · intro q n c now s d k hok hmiss hk
    unfold searchCUADSimple
    rw [hmiss]
    simp [hok]
    exact cacheGet_cacheSet_ne c (searchKey q n) k ⟨.backendData d, now⟩ hk
  · intro req c now net k e h
    rcases handle_cache_shape req c now net with hs | ⟨k1, v1, hv, hs⟩
    · rw [hs] at h
      exact Or.inl h
    · rw [hs] at h
      rcases cacheGet_cacheSet_cases c k1 k ⟨v1, now⟩ e h with ⟨hk, he⟩ | hold
      · right
        rw [he]
        exact hv
      · exact Or.inl hold

theorem broker_cache_write_discipline_witness :
    (searchCUADSimple "q" 3 [] 0 (.fetchError "down")).cache = []
  ∧ (searchCUADSimple "a" 1 [] 5 (.response 200 (.parsed ⟨"b", "p", 2⟩))).cache
      = cacheSet [] (searchKey "a" 1) ⟨.backendData ⟨"b", "p", 2⟩, 5⟩ :=
  ⟨(broker_cache_write_discipline.2.1 "q" 3 [] 0 (.fetchError "down") rfl).1,
   broker_cache_write_discipline.1 "a" 1 [] 5 200 ⟨"b", "p", 2⟩ (by decide) rfl⟩

/-- C1 counterexample: at the concrete failure mode "non-2xx HTTP status with a
parseable body", the health-check handler does not return Fallback-Provider
output at all — it returns (and caches) the healthy object, which carries no
fallback flag; and the search fallback response, while it is Fallback-Provider
output, carries no fallback flag either. -/
theorem broker_fallback_flag_cex :
    (checkCUADHealth [] 0 (.response 404 (.parsed ⟨"", "", 0⟩))).value
        = .healthHealthy ⟨"", "", 0⟩
  ∧ statusOk 404 = false
  ∧ valHasFallbackTrue ((checkCUADHealth [] 0 (.response 404 (.parsed ⟨"", "", 0⟩))).value)
        = false
  ∧ cacheGet (checkCUADHealth [] 0 (.response 404 (.parsed ⟨"", "", 0⟩))).cache healthKey
        = some ⟨.healthHealthy ⟨"", "", 0⟩, 0⟩
  ∧ (searchCUADSimple "zzz" 3 [] 0 (.fetchError "network error")).value
        = .clauses (getFallbackClauses "zzz" 3)
  ∧ valHasFallbackTrue ((searchCUADSimple "zzz" 3 [] 0 (.fetchError "network error")).value)
        = false := by decide

/-- C1 amended: on a cache miss, every error branch resolves with the Fallback
Provider output for that action instead of propagating: search failures
return the fallback clauses (no fallback flag on the response), analyze
failures return the status-"fallback" object (no fallback flag field), and
health-check fetch errors and malformed payloads return the status-"error"
object, which alone carries fallback: true.  A non-2xx health response with a
parseable body is not treated as a failure: it is returned as healthy. -/
theorem broker_fallback_behavior :
    (∀ (q : String) (n : Nat) (c : Cache) (now : Nat) (net : FetchOutcome),
        getFresh c now (searchKey q n) = none → fetchFails net = true →
        (searchCUADSimple q n c now net).value = .clauses (getFallbackClauses q n)
          ∧ valHasFallbackTrue ((searchCUADSimple q n c now net).value) = false)
  ∧ (∀ (doc : String) (qu : Option String) (c : Cache) (now : Nat) (net : FetchOutcome),
        getFresh c now (analyzeKey doc qu) = none → fetchFails net = true →
        (analyzeSimple doc qu c now net).value
            = .analyzeFallback (analyzeFallbackFor doc qu)
          ∧ (analyzeFallbackFor doc qu).status = "fallback")
  ∧ (∀ (c : Cache) (now : Nat) (msg : String),
        getFresh c now healthKey = none →
        (checkCUADHealth c now (.fetchError msg)).value = .healthError msg
          ∧ valHasFallbackTrue (.healthError msg) = true)
  ∧ (∀ (c : Cache) (now s : Nat) (msg : String),
        getFresh c now healthKey = none →
        (checkCUADHealth c now (.response s (.malformed msg))).value = .healthError msg)
  ∧ (∀ (c : Cache) (now s : Nat) (d : BackendData),
        getFresh c now healthKey = none →
        (checkCUADHealth c now (.response s (.parsed d))).value = .healthHealthy d) := by
  refine ⟨?_, ?_, ?_, ?_, ?_⟩
  · intro q n c now net hmiss hf
    unfold searchCUADSimple
    rw [hmiss]
    cases net with
    | fetchError m => exact ⟨rfl, rfl⟩
    | response s b =>
      cases b with
      | parsed d =>
        have hs : statusOk s = false := by
          simpa [fetchFails] using hf
        simp [hs, valHasFallbackTrue]
      | malformed m =>
        by_cases hs : statusOk s
        · simp [hs, valHasFallbackTrue]
        · simp [hs, valHasFallbackTrue]
  · intro doc qu c now net hmiss hf
    unfold analyzeSimple
    rw [hmiss]
    cases net with
    | fetchError m => exact ⟨rfl, rfl⟩
    | response s b =>
      cases b with
      | parsed d =>
        have hs : statusOk s = false := by
          simpa [fetchFails] using hf
        simp [hs, analyzeFallbackFor]
      | malformed m =>
        by_cases hs : statusOk s
        · simp [hs, analyzeFallbackFor]
        · simp [hs, analyzeFallbackFor]
  · intro c now msg hmiss
    unfold checkCUADHealth checkCUADHealthFetch
    rw [hmiss]
    exact ⟨rfl, rfl⟩
  · intro c now s msg hmiss
    unfold checkCUADHealth checkCUADHealthFetch
    rw [hmiss]
  · intro c now s d hmiss
    unfold checkCUADHealth checkCUADHealthFetch
    rw [hmiss]

theorem broker_fallback_behavior_witness :
    (searchCUADSimple "zzz" 2 [] 0 (.response 500 (.parsed ⟨"", "", 0⟩))).value
      = .clauses (getFallbackClauses "zzz" 2) :=
  (broker_fallback_behavior.1 "zzz" 2 [] 0 (.response 500 (.parsed ⟨"", "", 0⟩)) rfl
      (by decide)).1

/-- C6 counterexample: the unknown-action case is not the only one answered
without consulting cache or network — PING and GET_GPT_RESPONSE, both in the
enumerated set, are also answered with no cache read, no cache write, and no
network call; and the error string is "Unknown action", not "unknown action". -/
theorem unknown_action_only_cex :
    handle ⟨"PING", "", none, "", none, ""⟩ [] 7 (.fetchError "down")
      = ⟨.pong 7, [], false, false, false⟩
  ∧ "PING" ∈ enumeratedActions
  ∧ handle ⟨"GET_GPT_RESPONSE", "", none, "", none, ""⟩ [] 7 (.fetchError "down")
      = ⟨.gpt true gptFallbackContent 7, [], false, false, false⟩
  ∧ "GET_GPT_RESPONSE" ∈ enumeratedActions
  ∧ (handle ⟨"BOGUS", "", none, "", none, ""⟩ [] 0 (.fetchError "down")).response
      = .unknownAction "Unknown action" "BOGUS"
  ∧ "Unknown action" ≠ "unknown action"
  ∧ "BOGUS" ∉ enumeratedActions := by decide

/-- C6 amended: a request whose action is outside the enumerated set is
answered immediately with the error object (error string "Unknown action",
the action echoed back, no fallback flag) with no cache lookup, no cache
write, and no network call; but it is not the only such case — PING and
GET_GPT_RESPONSE are likewise answered without consulting cache or network. -/
theorem unknown_action_behavior :
    (∀ (req : Request) (c : Cache) (now : Nat) (net : FetchOutcome),
        req.action ∉ enumeratedActions →
        handle req c now net
          = ⟨.unknownAction "Unknown action" req.action, c, false, false, false⟩)
  ∧ (∀ (req : Request) (c : Cache) (now : Nat) (net : FetchOutcome),
        req.action = "PING" →
        handle req c now net = ⟨.pong now, c, false, false, false⟩)
  ∧ (∀ (req : Request) (c : Cache) (now : Nat) (net : FetchOutcome),
        req.action = "GET_GPT_RESPONSE" →
        handle req c now net = ⟨.gpt true gptFallbackContent now, c, false, false, false⟩) := by
  refine ⟨?_, ?_, ?_⟩
  · intro req c now net h
    simp only [enumeratedActions, List.mem_cons, List.not_mem_nil, or_false, not_or] at h
    obtain ⟨h1, h2, h3, h4, h5, h6⟩ := h
    unfold handle
    rw [if_neg h1, if_neg h2, if_neg h3, if_neg h4, if_neg h5, if_neg h6]
  · intro req c now net h
    unfold handle
    rw [h]
    rw [if_neg (by decide), if_neg (by decide), if_neg (by decide), if_neg (by decide),
        if_neg (by decide), if_pos rfl]
  · intro req c now net h
    unfold handle
    rw [h]
    rw [if_neg (by decide), if_neg (by decide), if_neg (by decide), if_pos rfl]

theorem unknown_action_behavior_witness :
    handle ⟨"BOGUS", "", none, "", none, ""⟩ [] 3 (.fetchError "x")
      = ⟨.unknownAction "Unknown action" "BOGUS", [], false, false, false⟩ :=
  unknown_action_behavior.1 ⟨"BOGUS", "", none, "", none, ""⟩ [] 3 (.fetchError "x")
    (by decide)

/-- C5: for `n > 0`, fallback search filters the fixed catalog by
case-insensitive substring match against clause text or type and keeps at most
`n` matches in catalog order; when nothing matches it returns the first `n`
catalog entries unfiltered; the result is never empty, is bounded by `n`, is
an order-preserving selection from the catalog, and the filter is idempotent. -/
theorem fallback_clauses_spec (query : String) (n : Nat) (hn : 0 < n) :
    ((sampleClauses.filter (clauseMatches (strToLower query))) = [] →
        getFallbackClauses query n = sampleClauses.take n)
  ∧ ((sampleClauses.filter (clauseMatches (strToLower query))) ≠ [] →
        getFallbackClauses query n
          = (sampleClauses.filter (clauseMatches (strToLower query))).take n)
  ∧ getFallbackClauses query n ≠ []
  ∧ (getFallbackClauses query n).length ≤ n
  ∧ (getFallbackClauses query n).Sublist sampleClauses
  ∧ (sampleClauses.filter (clauseMatches (strToLower query))).filter
        (clauseMatches (strToLower query))
      = sampleClauses.filter (clauseMatches (strToLower query)) := by
  have hidem : (sampleClauses.filter (clauseMatches (strToLower query))).filter
        (clauseMatches (strToLower query))
      = sampleClauses.filter (clauseMatches (strToLower query)) := by
    rw [List.filter_filter]
    simp
  have hfe : getFallbackClauses query n =
      (if ((sampleClauses.filter (clauseMatches (strToLower query))).take n).length > 0
       then (sampleClauses.filter (clauseMatches (strToLower query))).take n
       else sampleClauses.take n) := rfl
  by_cases h : sampleClauses.filter (clauseMatches (strToLower query)) = []
  · have hval : getFallbackClauses query n = sampleClauses.take n := by
      rw [hfe, h]
      simp
    have hne : sampleClauses.take n ≠ [] := by
      intro hc
      rcases List.take_eq_nil_iff.mp hc with h0 | h0
      · omega
      · exact absurd h0 (by decide)
    refine ⟨fun _ => hval, fun hne2 => absurd h hne2, ?_, ?_, ?_, hidem⟩
    · rw [hval]
      exact hne
    · rw [hval, List.length_take]
      exact Nat.min_le_left _ _
    · rw [hval]
      exact List.take_sublist n sampleClauses
  · have hlen : 0 < ((sampleClauses.filter (clauseMatches (strToLower query))).take n).length := by
      rw [List.length_take]
      have h1 : 0 < (sampleClauses.filter (clauseMatches (strToLower query))).length :=
        List.length_pos.mpr h
      exact Nat.lt_min.mpr ⟨hn, h1⟩
    have hval : getFallbackClauses query n
        = (sampleClauses.filter (clauseMatches (strToLower query))).take n := by
      rw [hfe, if_pos hlen]
    refine ⟨fun h0 => absurd h0 h, fun _ => hval, ?_, ?_, ?_, hidem⟩
    · rw [hval]
      intro hc
      rcases List.take_eq_nil_iff.mp hc with h0 | h0
      · omega
      · exact h h0
    · rw [hval, List.length_take]
      exact Nat.min_le_left _ _
    · rw [hval]
      exact (List.take_sublist _ _).trans (List.filter_sublist _)

theorem fallback_clauses_spec_witness :
    getFallbackClauses "confidential" 3 ≠ [] :=
  (fallback_clauses_spec "confidential" 3 (by decide)).2.2.1

/-- C7: in the timed model of `fetchWithTimeout`, every invocation yields
exactly one of the three outcomes; the outcome is a timeout exactly when the
deadline fires no later than the operation settles, in which case the
operation is actively aborted; otherwise the outcome of the operation itself (response
or transport rejection) passes through un-aborted; the timer is always
cleared; and the default deadline is 10 000 ms. -/
theorem fetch_with_timeout_trichotomy (timeoutMs opTime : Nat) (op : OpResult) :
    ((isSuccess (fetchWithTimeout timeoutMs opTime op).result).toNat
       + (isTimeoutRes (fetchWithTimeout timeoutMs opTime op).result).toNat
       + (isTransport (fetchWithTimeout timeoutMs opTime op).result).toNat = 1)
  ∧ ((fetchWithTimeout timeoutMs opTime op).result = .timeoutErr ↔ timeoutMs ≤ opTime)
  ∧ ((fetchWithTimeout timeoutMs opTime op).aborted = true ↔ timeoutMs ≤ opTime)
  ∧ (∀ (s : Nat) (b : Body),
        (fetchWithTimeout timeoutMs opTime op).result = .success s b ↔
          opTime < timeoutMs ∧ op = .ok s b)
  ∧ (∀ msg : String,
        (fetchWithTimeout timeoutMs opTime op).result = .transportErr msg ↔
          opTime < timeoutMs ∧ op = .netError msg)
  ∧ (fetchWithTimeout timeoutMs opTime op).timerCleared = true
  ∧ CONFIG_TIMEOUT = 10000 := by
  by_cases h : opTime < timeoutMs
  · have hr : fetchWithTimeout timeoutMs opTime op =
        ⟨match op with
          | .ok s b => .success s b
          | .netError msg => .transportErr msg, false, true⟩ := by
      unfold fetchWithTimeout
      rw [if_pos h]
    cases op with
    | ok s0 b0 =>
      rw [hr]
      refine ⟨rfl, ?_, ?_, ?_, ?_, rfl, rfl⟩
      · exact ⟨fun hc => ExecResult.noConfusion hc,
               fun hle => absurd hle (Nat.not_le.mpr h)⟩
      · exact ⟨fun hc => Bool.noConfusion hc,
               fun hle => absurd hle (Nat.not_le.mpr h)⟩
      · intro s b
        constructor
        · intro hc
          injection hc with hs hb
          subst hs
          subst hb
          exact ⟨h, rfl⟩
        · rintro ⟨-, hop⟩
          injection hop with hs hb
          rw [hs, hb]
      · intro msg
        exact ⟨fun hc => ExecResult.noConfusion hc, fun hp => OpResult.noConfusion hp.2⟩
    | netError m0 =>
      rw [hr]
      refine ⟨rfl, ?_, ?_, ?_, ?_, rfl, rfl⟩
      · exact ⟨fun hc => ExecResult.noConfusion hc,
               fun hle => absurd hle (Nat.not_le.mpr h)⟩
      · exact ⟨fun hc => Bool.noConfusion hc,
               fun hle => absurd hle (Nat.not_le.mpr h)⟩
      · intro s b
        exact ⟨fun hc => ExecResult.noConfusion hc, fun hp => OpResult.noConfusion hp.2⟩
      · intro msg
        constructor
        · intro hc
          injection hc with hm
          subst hm
          exact ⟨h, rfl⟩
        · rintro ⟨-, hop⟩
          injection hop with hm
          rw [hm]
  · have hr : fetchWithTimeout timeoutMs opTime op = ⟨.timeoutErr, true, true⟩ := by
      unfold fetchWithTimeout
      rw [if_neg h]
    have hle : timeoutMs ≤ opTime := Nat.not_lt.mp h
    rw [hr]
    refine ⟨rfl, ⟨fun _ => hle, fun _ => rfl⟩, ⟨fun _ => hle, fun _ => rfl⟩, ?_, ?_, rfl, rfl⟩
    · intro s b
      exact ⟨fun hc => ExecResult.noConfusion hc, fun hp => absurd hp.1 h⟩
    · intro msg
      exact ⟨fun hc => ExecResult.noConfusion hc, fun hp => absurd hp.1 h⟩

end LegalGuardian
